import Mathlib

/-!
Shallow embedding of the spectrometer GUI's protocol and acquisition core
(src/protocol_handler.py, src/data_acquisition.py, src/async_communication.py).

Python strings are modelled as Lean `String` (lists of unicode characters,
`ord` = `Char.toNat`); Python ints as `Int`; Python floats as `ℚ` (the values
arising here are exact decimals, and IEEE rounding plays no role in any of the
properties considered); Python exceptions as `Option`/`Except` with `none` /
`.error` marking a raised exception.  All definitions are structural
recursions so that concrete runs reduce inside the kernel.
-/

/-! ### Character-list primitives mirroring the Python string operations used -/

/-- `str.split(sep)` for a one-character separator: splits at every occurrence;
the empty string yields `[""]`, like Python. -/
def splitChar (sep : Char) : List Char → List (List Char)
  | [] => [[]]
  | c :: rest =>
      let r := splitChar sep rest
      if c = sep then [] :: r
      else
        match r with
        | h :: t => (c :: h) :: t
        | [] => [[c]]

/-- `str.split(' ', 1)`: the text before the first space, and (when a space
exists) the remainder after it. -/
def splitOnceAux (acc : List Char) : List Char → List Char × Option (List Char)
  | [] => (acc.reverse, none)
  | ' ' :: rest => (acc.reverse, some rest)
  | c :: rest => splitOnceAux (c :: acc) rest

/-- `str.strip()`: drop leading and trailing whitespace (the ASCII whitespace
relevant to this protocol; Python also strips some unicode space characters,
which never occur in these frames). -/
def pyStrip (cs : List Char) : List Char :=
  ((cs.dropWhile Char.isWhitespace).reverse.dropWhile Char.isWhitespace).reverse

/-! ### Python numeric-literal parsing (`int(s)`, `int(s, 16)`, `float(s)`) -/

/-- Value of a hexadecimal digit character, if it is one. -/
def hexVal (c : Char) : Option Nat :=
  if '0' ≤ c ∧ c ≤ '9' then some (c.toNat - '0'.toNat)
  else if 'a' ≤ c ∧ c ≤ 'f' then some (c.toNat - 'a'.toNat + 10)
  else if 'A' ≤ c ∧ c ≤ 'F' then some (c.toNat - 'A'.toNat + 10)
  else none

/-- Value of a decimal digit character, if it is one. -/
def decVal (c : Char) : Option Nat :=
  if '0' ≤ c ∧ c ≤ '9' then some (c.toNat - '0'.toNat) else none

/-- Digit-run accumulator: digits in the given base, allowing a single
underscore between two digits (Python's numeric-literal grouping rule). -/
def pyDigitsAux (dv : Char → Option Nat) (base : Nat) : Nat → List Char → Option Nat
  | acc, [] => some acc
  | acc, '_' :: c :: rest =>
      match dv c with
      | some v => pyDigitsAux dv base (acc * base + v) rest
      | none => none
  | acc, c :: rest =>
      match dv c with
      | some v => pyDigitsAux dv base (acc * base + v) rest
      | none => none

/-- A non-empty digit run (no leading underscore). -/
def pyDigits (dv : Char → Option Nat) (base : Nat) : List Char → Option Nat
  | [] => none
  | c :: rest =>
      match dv c with
      | some v => pyDigitsAux dv base v rest
      | none => none

/-- After a `0x`/`0X` prefix Python permits one underscore before the digits. -/
def pyHexTail : List Char → Option Nat
  | '_' :: rest => pyDigits hexVal 16 rest
  | cs => pyDigits hexVal 16 cs

/-- Body of `int(s, 16)` after sign removal: optional `0x`/`0X` prefix, then
hex digits. -/
def pyHexBody : List Char → Option Nat
  | '0' :: 'x' :: rest => pyHexTail rest
  | '0' :: 'X' :: rest => pyHexTail rest
  | cs => pyDigits hexVal 16 cs

/-- Optional sign in front of a natural-number body. -/
def pySigned (body : List Char → Option Nat) (cs : List Char) : Option Int :=
  match cs with
  | '+' :: rest => (body rest).map Int.ofNat
  | '-' :: rest => (body rest).map fun n => -(n : Int)
  | rest => (body rest).map Int.ofNat

/-- Python `int(s, 16)`: strip whitespace, optional sign, optional `0x` prefix,
hex digits; `none` models the `ValueError` raised on anything else. -/
def pyIntHex (s : String) : Option Int :=
  pySigned pyHexBody (pyStrip s.data)

/-- Python `int(s)` (base 10). -/
def pyIntDec (s : String) : Option Int :=
  pySigned (pyDigits decVal 10) (pyStrip s.data)

/-! ### Kernel-evaluable rational arithmetic

Mathlib's `Rat.add`, `Rat.mul` and `Rat.sub` are `@[irreducible]`, so closed
instances of the model could not be checked by `decide` if the model used the
ring operations directly.  The model therefore computes with the following
`Rat.divInt`-based operations; the lemmas right after each one prove it equal
to the corresponding ring operation, so the theorems below can be stated with
ordinary `+ - * / ^`. -/

/-- `a + b` on ℚ, by cross-multiplication. -/
def qAdd (a b : ℚ) : ℚ := Rat.divInt (a.num * b.den + b.num * a.den) (a.den * b.den)

/-- `a - b` on ℚ, by cross-multiplication. -/
def qSub (a b : ℚ) : ℚ := Rat.divInt (a.num * b.den - b.num * a.den) (a.den * b.den)

/-- `a * b` on ℚ. -/
def qMul (a b : ℚ) : ℚ := Rat.divInt (a.num * b.num) (a.den * b.den)

/-- `a / b` on ℚ (yielding `0` for `b = 0`, like Mathlib's `/`; the model
treats Python's `ZeroDivisionError` separately at each use site). -/
def qDiv (a b : ℚ) : ℚ := Rat.divInt (a.num * b.den) (a.den * b.num)

/-- `-a` on ℚ. -/
def qNeg (a : ℚ) : ℚ := Rat.divInt (-a.num) a.den

/-- `a ^ n` on ℚ. -/
def qPowNat (a : ℚ) : Nat → ℚ
  | 0 => 1
  | n + 1 => qMul (qPowNat a n) a

/-- `a ^ e` for an integer exponent. -/
def qPowInt (a : ℚ) : Int → ℚ
  | .ofNat n => qPowNat a n
  | .negSucc n => qDiv 1 (qPowNat a (n + 1))

theorem qAdd_eq (a b : ℚ) : qAdd a b = a + b := by
  rw [qAdd]
  conv_rhs => rw [← Rat.num_divInt_den a, ← Rat.num_divInt_den b]
  rw [Rat.divInt_add_divInt _ _ (Int.natCast_ne_zero.2 a.den_nz) (Int.natCast_ne_zero.2 b.den_nz)]

theorem qSub_eq (a b : ℚ) : qSub a b = a - b := by
  rw [qSub]
  conv_rhs => rw [← Rat.num_divInt_den a, ← Rat.num_divInt_den b]
  rw [Rat.divInt_sub_divInt _ _ (Int.natCast_ne_zero.2 a.den_nz) (Int.natCast_ne_zero.2 b.den_nz)]

theorem qMul_eq (a b : ℚ) : qMul a b = a * b := by
  rw [qMul]
  conv_rhs => rw [← Rat.num_divInt_den a, ← Rat.num_divInt_den b]
  rw [Rat.divInt_mul_divInt']

theorem qDiv_eq (a b : ℚ) : qDiv a b = a / b := by
  rw [qDiv, Rat.div_def']

theorem qNeg_eq (a : ℚ) : qNeg a = -a := by
  rw [qNeg, Rat.neg_def]

theorem qPowNat_eq (a : ℚ) (n : Nat) : qPowNat a n = a ^ n := by
  induction n with
  | zero => rw [qPowNat, pow_zero]
  | succ k ih => rw [qPowNat, qMul_eq, ih, pow_succ]

theorem qPowInt_eq (a : ℚ) (e : Int) : qPowInt a e = a ^ e := by
  cases e with
  | ofNat n => rw [qPowInt, qPowNat_eq, Int.ofNat_eq_coe, zpow_natCast]
  | negSucc n => rw [qPowInt, qDiv_eq, qPowNat_eq, zpow_negSucc, one_div]

/-- Longest leading run of decimal digits and underscores, plus the rest. -/
def takeDigitRun : List Char → List Char × List Char
  | [] => ([], [])
  | c :: rest =>
      if ('0' ≤ c ∧ c ≤ '9') ∨ c = '_' then
        let (run, rest') := takeDigitRun rest
        (c :: run, rest')
      else ([], c :: rest)

/-- Number of actual digits in a run (underscores excluded). -/
def digitCount (cs : List Char) : Nat := (cs.filter (· ≠ '_')).length

/-- Exponent part of a float literal after `e`/`E`: optional sign and digits. -/
def pyExpSigned (cs : List Char) : Option Int :=
  match cs with
  | '+' :: rest => (pyDigits decVal 10 rest).map Int.ofNat
  | '-' :: rest => (pyDigits decVal 10 rest).map fun n => -(n : Int)
  | rest => (pyDigits decVal 10 rest).map Int.ofNat

/-- Optional exponent of a float literal; empty input means exponent `0`;
anything else trailing makes the literal invalid. -/
def pyFloatExp : List Char → Option Int
  | [] => some 0
  | 'e' :: rest => pyExpSigned rest
  | 'E' :: rest => pyExpSigned rest
  | _ => none

/-- Body of `float(s)` after sign removal: `digits [. digits] [exp]` or
`. digits [exp]`, with at least one mantissa digit.  The IEEE specials
`inf`/`nan` have no rational counterpart and are not modelled (they never
appear in the runs analysed here). -/
def pyFloatBody (cs : List Char) : Option ℚ :=
  let (ip, rest1) := takeDigitRun cs
  match rest1 with
  | '.' :: r =>
      let (fp, rest2) := takeDigitRun r
      match pyFloatExp rest2 with
      | none => none
      | some e =>
          if ip = [] ∧ fp = [] then none
          else
            match (if ip = [] then some 0 else pyDigits decVal 10 ip),
                  (if fp = [] then some 0 else pyDigits decVal 10 fp) with
            | some iv, some fv =>
                some (qMul (qAdd (iv : ℚ) (qDiv (fv : ℚ) (qPowNat 10 (digitCount fp))))
                  (qPowInt 10 e))
            | _, _ => none
  | _ =>
      match pyFloatExp rest1 with
      | none => none
      | some e =>
          match pyDigits decVal 10 ip with
          | some iv => some (qMul (iv : ℚ) (qPowInt 10 e))
          | none => none

/-- Python `float(s)` restricted to finite decimal literals. -/
def pyFloat (s : String) : Option ℚ :=
  match pyStrip s.data with
  | '+' :: rest => pyFloatBody rest
  | '-' :: rest => (pyFloatBody rest).map qNeg
  | rest => pyFloatBody rest

/-- `bool(n & (1 << i))` with Python's two's-complement view of negative
integers: bit `i` of `n` is bit `i` of `n mod 2^(i+1)`. -/
def pyBitSet (n : Int) (i : Nat) : Bool :=
  ((n.emod (2 ^ (i + 1))).toNat).testBit i

/-! ### ProtocolHandler (src/protocol_handler.py) -/

/-- `ProtocolHandler.COMMAND_SET`: command type → payload template. -/
def COMMAND_SET : List (String × String) :=
  [("set_wavelength", "WL {value}"),
   ("read_wavelength", "WL?"),
   ("read_spectrum", "SPT?"),
   ("read_intensity", "INT?"),
   ("set_integration", "INTTIME {value}"),
   ("read_integration", "INTTIME?"),
   ("calibration", "CAL {mode}"),
   ("get_status", "STAT?"),
   ("set_average", "AVG {value}"),
   ("read_average", "AVG?"),
   ("reset_device", "RST"),
   ("get_version", "VER?")]

/-- The keyword arguments `build_command` is ever called with: `value=` and
`mode=` (Python `**kwargs`, restricted to the names the templates use). -/
structure Kwargs where
  value : Option String := none
  mode : Option String := none
deriving DecidableEq

/-- Exceptions out of `build_command`: `KeyError` from the dict lookup or from
`str.format` on a missing keyword, `ValueError` from a malformed template. -/
inductive BuildError
  | keyError
  | valueError
deriving DecidableEq

deriving instance DecidableEq for Except

/-- Keyword lookup for `str.format(**kwargs)`. -/
def lookupKw (kw : Kwargs) (name : List Char) : Option String :=
  if name = "value".data then kw.value
  else if name = "mode".data then kw.mode
  else none

/-- `template.format(**kwargs)` for the templates of `COMMAND_SET`: copy
characters, substituting each `{name}` placeholder; a missing keyword raises
`KeyError`, an unterminated `{` raises `ValueError`.  The scanner state is
`none` while copying text and `some acc` while reading a placeholder name. -/
def formatAux (kw : Kwargs) : Option (List Char) → List Char → Except BuildError (List Char)
  | none, [] => .ok []
  | some _, [] => .error .valueError
  | none, '{' :: rest => formatAux kw (some []) rest
  | none, c :: rest => (formatAux kw none rest).map (c :: ·)
  | some acc, '}' :: rest =>
      match lookupKw kw acc.reverse with
      | some v => (formatAux kw none rest).map (v.data ++ ·)
      | none => .error .keyError
  | some acc, c :: rest => formatAux kw (some (c :: acc)) rest

/-- `sum(ord(c) for c in s) % 256`. -/
def checksumOf (s : String) : Nat :=
  (s.data.map Char.toNat).sum % 256

/-- Hex digit character (uppercase), for `f"{checksum:02X}"`. -/
def hexDigitChar (n : Nat) : Char :=
  "0123456789ABCDEF".data.getD n '0'

/-- `f"{n:02X}"` for `n < 256`. -/
def toHex2 (n : Nat) : String :=
  ⟨[hexDigitChar (n / 16 % 16), hexDigitChar (n % 16)]⟩

/-- `f"${raw_cmd}*{checksum:02X}\r\n"`. -/
def frameOf (raw_cmd : String) : String :=
  "$" ++ raw_cmd ++ "*" ++ toHex2 (checksumOf raw_cmd) ++ "\r\n"

/-- `ProtocolHandler.build_command`: template lookup, parameter substitution,
checksum, framing.  There is no parameter validation of any kind in the
source: whatever string the keyword holds is substituted verbatim. -/
def build_command (cmd_type : String) (kw : Kwargs) : Except BuildError String :=
  match (COMMAND_SET.find? fun p => p.1 = cmd_type).map Prod.snd with
  | none => .error .keyError
  | some template =>
      match formatAux kw none template.data with
      | .error e => .error e
      | .ok raw => .ok (frameOf ⟨raw⟩)

/-- Decoded `data` dictionaries produced by `ProtocolHandler._parse_payload`.
`dataError` stands for the `{'error': 'Data parsing error: ...'}` dictionary
(the exception text is dropped). -/
inductive ParsedData
  | value (v : ℚ)
  | spectrum (vs : List ℚ)
  | intensity (v : ℚ)
  | status (ready error calibrating measuring : Bool)
  | version (v : String)
  | calStatus (s : String)
  | raw (payload : String)
  | dataError
deriving DecidableEq

/-- Error reasons of `parse_response` (the `'error'` strings, with exception
text dropped from the `Parsing error` case). -/
inductive ErrorReason
  | invalidFrame
  | checksumMismatch
  | parsingError
deriving DecidableEq

/-- Result of `ProtocolHandler.parse_response`. -/
inductive ParseResult
  | invalid (reason : ErrorReason)
  | valid (command : String) (data : ParsedData)
deriving DecidableEq

/-- `ProtocolHandler._parse_payload`. -/
def parse_payload (payload : String) : ParsedData :=
  let parts := splitOnceAux [] payload.data
  let cmd : String := ⟨parts.1⟩
  let data : String := ⟨(parts.2).getD []⟩
  if cmd = "WL" ∨ cmd = "INTTIME" ∨ cmd = "AVG" then
    if data.data.contains '.' then
      match pyFloat data with
      | some v => .value v
      | none => .dataError
    else
      match pyIntDec data with
      | some v => .value (v : ℚ)
      | none => .dataError
  else if cmd = "SPT" then
    match (splitChar ',' data.data).mapM (fun cs => pyFloat ⟨cs⟩) with
    | some vs => .spectrum vs
    | none => .dataError
  else if cmd = "INT" then
    match pyFloat data with
    | some v => .intensity v
    | none => .dataError
  else if cmd = "STAT" then
    match pyIntHex data with
    | some n => .status (pyBitSet n 0) (pyBitSet n 1) (pyBitSet n 2) (pyBitSet n 3)
    | none => .dataError
  else if cmd = "VER" then .version ⟨pyStrip data.data⟩
  else if cmd = "CAL" then .calStatus (if data = "OK" then "success" else "error")
  else .raw payload

/-- `response.startswith('$')`. -/
def startsWithDollar (s : String) : Bool :=
  match s.data with
  | '$' :: _ => true
  | _ => false

/-- `ProtocolHandler.parse_response`.  Note the source's slice
`response[1:-3]`, which keeps everything from index 1 up to (excluding) the
third-to-last character. -/
def parse_response (response : String) : ParseResult :=
  if ¬ startsWithDollar response ∨ ¬ response.data.contains '*' then
    .invalid .invalidFrame
  else
    let sliced : List Char := (response.data.drop 1).take (response.data.length - 4)
    match splitChar '*' sliced with
    | [payload, checksum] =>
        match pyIntHex ⟨checksum⟩ with
        | none => .invalid .parsingError
        | some c =>
            if (checksumOf ⟨payload⟩ : Int) ≠ c then .invalid .checksumMismatch
            else
              .valid ⟨((splitChar ' ' payload).headD [])⟩ (parse_payload ⟨payload⟩)
    | _ => .invalid .parsingError

/-! ### DataAcquisition (src/data_acquisition.py) -/

/-- `ScanMode`. -/
inductive ScanMode
  | SINGLE
  | REPEAT
  | AUTO
deriving DecidableEq

/-- `ScanConfig`. -/
structure ScanConfig where
  start_wavelength : ℚ
  end_wavelength : ℚ
  step_size : ℚ
  mode : ScanMode
  repeat_count : Int := 1
  interval : ℚ := 1
deriving DecidableEq

/-- A `communicator.send_command(...)` call issued by the scan loop. -/
inductive SentCommand
  | set_wavelength (value : ℚ)
  | read_intensity
deriving DecidableEq

/-- The `DataAcquisition` instance state, together with the observable traces
of issued commands and emitted `scan_progress` signals.  (`_scan_data`, the
intensity accumulation list, plays no role in the properties below and is not
modelled; `auto_timer_started` records that the AUTO-mode `QTimer` was
started, whose later asynchronous firings are outside this synchronous
model.) -/
structure DAState where
  current_scan : Option ScanConfig
  is_scanning : Bool
  scan_state : String
  repeat_count : Int
  auto_timer_started : Bool
  sent_commands : List SentCommand
  progress_events : List ℚ
deriving DecidableEq

/-- `DataAcquisition.__init__` (with empty observation traces). -/
def initDAState : DAState :=
  { current_scan := none, is_scanning := false, scan_state := "idle",
    repeat_count := 0, auto_timer_started := false,
    sent_commands := [], progress_events := [] }

/-- Python `int(x)` on a float value: truncation toward zero. -/
def pyTrunc (q : ℚ) : Int := q.num.tdiv q.den

/-- `np.linspace(s, e, n)` with endpoint included; `none` models the
`ValueError` raised on a negative sample count. -/
def linspace (s e : ℚ) (n : Int) : Option (List ℚ) :=
  if n < 0 then none
  else if n = 1 then some [s]
  else some ((List.range n.toNat).map fun i =>
    qAdd s (qDiv (qMul ((i : Nat) : ℚ) (qSub e s)) (qSub (n : ℚ) 1)))

/-- Append one command to the trace of `communicator.send_command` calls. -/
def sendCmd (st : DAState) (c : SentCommand) : DAState :=
  { st with sent_commands := st.sent_commands ++ [c] }

/-- Append one `scan_progress.emit(p)` to the trace. -/
def emitProgress (st : DAState) (p : ℚ) : DAState :=
  { st with progress_events := st.progress_events ++ [p] }

/-- The `for i, wl in enumerate(wavelengths)` loop body of
`_execute_single_scan`: break when `_is_scanning` was cleared, otherwise send
the wavelength-set and intensity-read commands and emit progress
`(i+1)/num_points`. -/
def scanLoop (num_points : Int) : Nat → List ℚ → DAState → DAState
  | _, [], st => st
  | i, wl :: rest, st =>
      if st.is_scanning then
        scanLoop num_points (i + 1) rest
          (emitProgress (sendCmd (sendCmd st (.set_wavelength wl)) .read_intensity)
            (qDiv (((i + 1 : Nat)) : ℚ) ((num_points : Int) : ℚ)))
      else st

/-- `DataAcquisition.stop_scan`. -/
def stop_scan (st : DAState) : DAState := { st with is_scanning := false }

/-- `DataAcquisition._handle_scan_complete`; `none` models the
`AttributeError` on a missing `_current_scan` (unreachable from
`start_scan`). -/
def handle_scan_complete (st : DAState) : Option DAState :=
  match st.current_scan with
  | none => none
  | some cfg =>
      match cfg.mode with
      | .SINGLE => some (stop_scan st)
      | .REPEAT =>
          if st.repeat_count ≥ cfg.repeat_count then some (stop_scan st) else some st
      | .AUTO => some st

/-- `DataAcquisition._execute_single_scan`; `none` models an uncaught
exception (`ZeroDivisionError` on a zero step size, or the `ValueError` out
of `np.linspace` on a negative point count). -/
def execute_single_scan (st : DAState) : Option DAState :=
  match st.current_scan with
  | none => some st
  | some cfg =>
      if cfg.step_size = 0 then none
      else
        let num_points : Int :=
          pyTrunc (qDiv (qSub cfg.end_wavelength cfg.start_wavelength) cfg.step_size) + 1
        match linspace cfg.start_wavelength cfg.end_wavelength num_points with
        | none => none
        | some wavelengths =>
            let st1 := scanLoop num_points 0 wavelengths st
            if st1.is_scanning then handle_scan_complete st1 else some st1

theorem scanLoop_preserves (num_points : Int) (wls : List ℚ) :
    ∀ (i : Nat) (st : DAState),
      (scanLoop num_points i wls st).current_scan = st.current_scan ∧
      (scanLoop num_points i wls st).repeat_count = st.repeat_count := by
  induction wls with
  | nil => intro i st; rw [scanLoop]; exact ⟨rfl, rfl⟩
  | cons wl rest ih =>
      intro i st
      rw [scanLoop]
      by_cases h : st.is_scanning = true
      · simpa [h, sendCmd, emitProgress] using ih (i + 1) _
      · simp [h]

theorem handle_scan_complete_preserves (st st' : DAState)
    (h : handle_scan_complete st = some st') :
    st'.current_scan = st.current_scan ∧ st'.repeat_count = st.repeat_count := by
  rw [handle_scan_complete] at h
  rcases hc : st.current_scan with _ | cfg
  · rw [hc] at h; exact absurd h (by simp)
  · rw [hc] at h
    dsimp only at h
    rcases hm : cfg.mode with _ | _ | _ <;> rw [hm] at h <;> dsimp only at h
    · injection h with h
      subst h
      exact ⟨hc, rfl⟩
    · split at h <;> (injection h with h; subst h; exact ⟨hc, rfl⟩)
    · injection h with h
      subst h
      exact ⟨hc, rfl⟩

theorem execute_single_scan_preserves (st st' : DAState)
    (h : execute_single_scan st = some st') :
    st'.current_scan = st.current_scan ∧ st'.repeat_count = st.repeat_count := by
  rw [execute_single_scan] at h
  rcases hc : st.current_scan with _ | cfg
  · rw [hc] at h
    dsimp only at h
    injection h with h
    subst h
    exact ⟨hc, rfl⟩
  · rw [hc] at h
    dsimp only at h
    by_cases hz : cfg.step_size = 0
    · simp [hz] at h
    · rw [if_neg hz] at h
      rcases hl : linspace cfg.start_wavelength cfg.end_wavelength
          (pyTrunc (qDiv (qSub cfg.end_wavelength cfg.start_wavelength) cfg.step_size) + 1)
        with _ | wavelengths
      · rw [hl] at h; exact absurd h (by simp)
      · rw [hl] at h
        simp only at h
        set st1 := scanLoop
          (pyTrunc (qDiv (qSub cfg.end_wavelength cfg.start_wavelength) cfg.step_size) + 1)
          0 wavelengths st with hst1
        have hp := scanLoop_preserves
          (pyTrunc (qDiv (qSub cfg.end_wavelength cfg.start_wavelength) cfg.step_size) + 1)
          wavelengths 0 st
        rw [← hst1] at hp
        by_cases hs : st1.is_scanning = true
        · rw [if_pos hs] at h
          have := handle_scan_complete_preserves st1 st' h
          exact ⟨(this.1.trans hp.1).trans hc, this.2.trans hp.2⟩
        · rw [if_neg hs] at h
          injection h with h
          subst h
          exact ⟨hp.1.trans hc, hp.2⟩

/-- `DataAcquisition._start_repeat_scan`: increment the repeat counter and
re-run the point loop while the counter is below the configured repeat count
and scanning was not cancelled; `none` models an uncaught exception
(including the `AttributeError` on a missing `_current_scan`). -/
def start_repeat_scan (st : DAState) : Option DAState :=
  match hc : st.current_scan with
  | none => none
  | some cfg =>
      if hlt : st.repeat_count < cfg.repeat_count then
        match h2 : execute_single_scan { st with repeat_count := st.repeat_count + 1 } with
        | none => none
        | some st2 => if st2.is_scanning then start_repeat_scan st2 else some st2
      else some st
termination_by ((st.current_scan.elim 0 (fun c => c.repeat_count)) - st.repeat_count).toNat
decreasing_by
  have hp := execute_single_scan_preserves _ _ h2
  simp only at hp
  rw [hp.1, hp.2, hc]
  simp only [Option.elim]
  omega

/-- `DataAcquisition._start_auto_scan`: create and start the periodic
`QTimer`. -/
def start_auto_scan (st : DAState) : DAState :=
  { st with auto_timer_started := true }

/-- `DataAcquisition.start_scan`: no-op while already scanning; otherwise set
the scanning flags, reset the repeat counter and dispatch on the mode. -/
def start_scan (cfg : ScanConfig) (st : DAState) : Option DAState :=
  if st.is_scanning then some st
  else
    let st1 : DAState :=
      { st with
        is_scanning := true
        current_scan := some cfg
        scan_state := "scanning"
        repeat_count := 0 }
    match cfg.mode with
    | .AUTO => some (start_auto_scan st1)
    | .REPEAT => start_repeat_scan st1
    | .SINGLE => execute_single_scan st1

/-! ### Peak detection (`DataAcquisition.detect_peaks`) -/

/-- `SpectrumData` (the capture timestamp plays no role in the properties
below). -/
structure SpectrumData where
  wavelengths : List ℚ
  intensities : List ℚ
deriving DecidableEq

/-- `PeakData`. -/
structure PeakData where
  wavelength : ℚ
  intensity : ℚ
  fwhm : ℚ
deriving DecidableEq

/-- `max a b` on ℚ through the decidable order (Mathlib's `max` does not
reduce in the kernel; `qMax_eq` below identifies the two). -/
def qMax (a b : ℚ) : ℚ := if a ≤ b then b else a

theorem qMax_eq (a b : ℚ) : qMax a b = max a b := (max_def a b).symm

/-- `np.max` over a non-empty array (never called on an empty array inside
`detect_peaks`, since the candidate loop is empty then; `0` is a junk value
for that case). -/
def npMax : List ℚ → ℚ
  | [] => 0
  | x :: xs => xs.foldl qMax x

/-- The local-maximum test of the candidate loop of `detect_peaks`:
`intensities[i] > intensities[i-1] and intensities[i] > intensities[i+1] and
intensities[i] > threshold * max(intensities)` (indices are in range for
every `i` produced by the loop). -/
def isPeakAt (ints : List ℚ) (threshold : ℚ) (i : Nat) : Bool :=
  decide (ints.getD (i - 1) 0 < ints.getD i 0) &&
  decide (ints.getD (i + 1) 0 < ints.getD i 0) &&
  decide (qMul threshold (npMax ints) < ints.getD i 0)

/-- The candidate indices collected by `for i in range(1, len(intensities)-1)`
with the local-maximum test. -/
def peak_indices (ints : List ℚ) (threshold : ℚ) : List Nat :=
  ((List.range (ints.length - 1)).drop 1).filter (isPeakAt ints threshold)

/-- `while left_idx > 0 and intensities[left_idx] > half_max: left_idx -= 1`. -/
def walkLeft (ints : List ℚ) (half_max : ℚ) : Nat → Nat
  | 0 => 0
  | i + 1 => if half_max < ints.getD (i + 1) 0 then walkLeft ints half_max i else i + 1

/-- `while right_idx < len(intensities)-1 and intensities[right_idx] >
half_max: right_idx += 1`, written with the loop's remaining iteration bound
`len-1-i` as a structural fuel argument. -/
def walkRightAux (ints : List ℚ) (half_max : ℚ) : Nat → Nat → Nat
  | 0, i => i
  | fuel + 1, i => if half_max < ints.getD i 0 then walkRightAux ints half_max fuel (i + 1) else i

/-- The right half-max walk from index `i`. -/
def walkRight (ints : List ℚ) (half_max : ℚ) (i : Nat) : Nat :=
  walkRightAux ints half_max (ints.length - 1 - i) i

/-- `DataAcquisition.detect_peaks` (the returned list; each element is also
emitted through `peak_detected`, in the same order). -/
def detect_peaks (spectrum : SpectrumData) (threshold : ℚ) : List PeakData :=
  let ints := spectrum.intensities
  let wls := spectrum.wavelengths
  (peak_indices ints threshold).map fun idx =>
    let half_max := qDiv (ints.getD idx 0) 2
    let left_idx := walkLeft ints half_max idx
    let right_idx := walkRight ints half_max idx
    { wavelength := wls.getD idx 0,
      intensity := ints.getD idx 0,
      fwhm := qSub (wls.getD right_idx 0) (wls.getD left_idx 0) }

/-! ### AsyncCommunicator (src/async_communication.py) -/

/-- The part of `CommunicationThread` state touched by `add_command`: the
FIFO queue of already-encoded command frames. -/
structure CommThread where
  command_queue : List String
deriving DecidableEq

/-- `AsyncCommunicator` state: the optional communication thread and the
connected flag. -/
structure AsyncCommunicator where
  comm_thread : Option CommThread
  connected : Bool
deriving DecidableEq

/-- `CommunicationThread.add_command`: build the frame and append it to the
queue; an exception out of `build_command` propagates. -/
def add_command (th : CommThread) (cmd_type : String) (kw : Kwargs) :
    Except BuildError CommThread :=
  match build_command cmd_type kw with
  | .error e => .error e
  | .ok cmd => .ok { th with command_queue := th.command_queue ++ [cmd] }

/-- `AsyncCommunicator.send_command`: forwards to the thread's queue only when
a thread exists and the connected flag is set; otherwise it falls through
without touching anything and without raising. -/
def send_command (ac : AsyncCommunicator) (cmd_type : String) (kw : Kwargs) :
    Except BuildError AsyncCommunicator :=
  match ac.comm_thread with
  | some th =>
      if ac.connected then
        match add_command th cmd_type kw with
        | .error e => .error e
        | .ok th2 => .ok { ac with comm_thread := some th2 }
      else .ok ac
  | none => .ok ac

/-! ### Claim theorems -/

/-- C1 (code bug): the claimed `parse_response ∘ build_command` round trip
fails on the code.  `build_command` frames `read_wavelength` as
`$WL?*E2\r\n`, but `parse_response`'s slice `response[1:-3]` cuts the last
three characters, so on the raw frame the checksum keeps only its first hex
digit (`E` here) and the comparison fails; on the CRLF-stripped frame (what
the communication threads pass in after `.strip()`) the whole `*E2` tail is
cut and the two-way unpacking raises.  Either way the result is `Invalid`,
never the valid decoded response the claim requires.  The same happens for
`set_wavelength` with the in-domain value 500. -/
theorem C1_roundtrip_fails_on_code :
    build_command "read_wavelength" {} = .ok "$WL?*E2\r\n" ∧
    parse_response "$WL?*E2\r\n" = .invalid .checksumMismatch ∧
    parse_response "$WL?*E2" = .invalid .parsingError ∧
    build_command "set_wavelength" { value := some "500" } = .ok "$WL 500*58\r\n" ∧
    parse_response "$WL 500*58\r\n" = .invalid .checksumMismatch ∧
    parse_response "$WL 500*58" = .invalid .parsingError := by
  refine ⟨by decide, by decide, by decide, by decide, by decide, by decide⟩

/-- C2 counterexample: the frame `$WL =*00\r\n` passes the (sliced) checksum
comparison and contains the malformed numeric field `=` in the recognized
`WL` payload; `parse_response` returns a *valid* response whose data is the
error marker, not the `Invalid` response the claim states. -/
theorem C2_malformed_field_not_invalid :
    parse_response "$WL =*00\r\n" = .valid "WL" .dataError ∧
    ∀ r, parse_response "$WL =*00\r\n" ≠ .invalid r := by
  have h : parse_response "$WL =*00\r\n" = .valid "WL" .dataError := by decide
  exact ⟨h, fun r hr => by rw [h] at hr; exact ParseResult.noConfusion hr⟩

/-- C2 (amended): `parse_response` fails closed on structural problems and
never raises: a line missing the leading `$` or the `*` separator is
`Invalid` (frame-format reason); a sliced line that does not split into
exactly payload and checksum, or whose checksum field is not a hex literal,
is `Invalid` (the raised `ValueError` is caught into the parsing-error
reason); a checksum mismatch is `Invalid`.  However — contrary to the claim —
a malformed numeric field inside a recognized command's payload of a frame
that passes the checksum comparison does NOT yield `Invalid`: the result is a
*valid* response whose data dictionary is the error marker (see the last
conjunct, and the counterexample theorem). -/
theorem C2_parse_fails_closed :
    (∀ s : String, startsWithDollar s = false ∨ s.data.contains '*' = false →
      parse_response s = .invalid .invalidFrame) ∧
    (∀ (s : String) (l : List (List Char)),
      startsWithDollar s = true → s.data.contains '*' = true →
      splitChar '*' ((s.data.drop 1).take (s.data.length - 4)) = l → l.length ≠ 2 →
      parse_response s = .invalid .parsingError) ∧
    (∀ (s : String) (p c : List Char),
      startsWithDollar s = true → s.data.contains '*' = true →
      splitChar '*' ((s.data.drop 1).take (s.data.length - 4)) = [p, c] →
      pyIntHex ⟨c⟩ = none →
      parse_response s = .invalid .parsingError) ∧
    (∀ (s : String) (p c : List Char) (n : Int),
      startsWithDollar s = true → s.data.contains '*' = true →
      splitChar '*' ((s.data.drop 1).take (s.data.length - 4)) = [p, c] →
      pyIntHex ⟨c⟩ = some n → (checksumOf ⟨p⟩ : Int) ≠ n →
      parse_response s = .invalid .checksumMismatch) ∧
    parse_response "$WL =*00\r\n" = .valid "WL" .dataError := by
  refine ⟨?_, ?_, ?_, ?_, by decide⟩
  · intro s h
    rw [parse_response]
    rcases h with h | h <;> rw [if_pos]
    · left; simp [h]
    · right; simpa using h
  · intro s l h1 h2 hsplit hlen
    rw [parse_response, if_neg]
    · dsimp only
      rw [hsplit]
      match l, hlen with
      | [], _ => rfl
      | [a], _ => rfl
      | [a, b], h => exact absurd rfl h
      | a :: b :: c :: rest, _ => rfl
    · simp only [not_or, not_not]
      exact ⟨by simp [h1], by simpa using h2⟩
  · intro s p c h1 h2 hsplit hhex
    rw [parse_response, if_neg]
    · dsimp only
      rw [hsplit]
      dsimp only
      rw [hhex]
    · simp only [not_or, not_not]
      exact ⟨by simp [h1], by simpa using h2⟩
  · intro s p c n h1 h2 hsplit hhex hcs
    rw [parse_response, if_neg]
    · dsimp only
      rw [hsplit]
      dsimp only
      rw [hhex]
      dsimp only
      rw [if_pos hcs]
    · simp only [not_or, not_not]
      exact ⟨by simp [h1], by simpa using h2⟩

/-- Witness for C2: the four quantified parts of `C2_parse_fails_closed`
applied at concrete inputs. -/
theorem C2_parse_fails_closed_witness :
    parse_response "WL?*E2" = .invalid .invalidFrame ∧
    parse_response "$WL?*E2" = .invalid .parsingError ∧
    parse_response "$WL?*GG123" = .invalid .parsingError ∧
    parse_response "$WL?*E2\r\n" = .invalid .checksumMismatch :=
  ⟨C2_parse_fails_closed.1 "WL?*E2" (Or.inl (by decide)),
   C2_parse_fails_closed.2.1 "$WL?*E2" [['W', 'L', '?']] (by decide) (by decide)
     (by decide) (by decide),
   C2_parse_fails_closed.2.2.1 "$WL?*GG123" ['W', 'L', '?'] ['G', 'G'] (by decide)
     (by decide) (by decide) (by decide),
   C2_parse_fails_closed.2.2.2.1 "$WL?*E2\r\n" ['W', 'L', '?'] ['E'] 14 (by decide)
     (by decide) (by decide) (by decide) (by decide)⟩

/-- C3 counterexample: `build_command` performs no domain validation at all.
A wavelength of 5000 (outside the declared 200–1000 nm range) and a
calibration mode `WARM` (neither `DARK` nor `REF`) are silently encoded into
well-formed frames instead of failing, and a missing required parameter
raises `KeyError`, not any `InvalidParameter` error (no such error exists in
the code). -/
theorem C3_no_invalid_parameter_failure :
    build_command "set_wavelength" { value := some "5000" } = .ok "$WL 5000*88\r\n" ∧
    build_command "calibration" { mode := some "WARM" } = .ok "$CAL WARM*27\r\n" ∧
    build_command "set_wavelength" {} = .error .keyError := by
  refine ⟨by decide, by decide, by decide⟩

/-- C3 (amended): `build_command` encodes whatever parameter string it is
given, for every parameterized command of the catalog, with no domain check
of any kind; the only failures are `KeyError` from a missing required
keyword or an unknown command type. -/
theorem C3_build_never_validates :
    (∀ v : String, build_command "set_wavelength" { value := some v } =
      .ok (frameOf ("WL " ++ v))) ∧
    (∀ v : String, build_command "set_integration" { value := some v } =
      .ok (frameOf ("INTTIME " ++ v))) ∧
    (∀ v : String, build_command "set_average" { value := some v } =
      .ok (frameOf ("AVG " ++ v))) ∧
    (∀ m : String, build_command "calibration" { mode := some m } =
      .ok (frameOf ("CAL " ++ m))) ∧
    build_command "set_wavelength" {} = .error .keyError ∧
    build_command "calibration" {} = .error .keyError ∧
    build_command "bogus_command" {} = .error .keyError := by
  refine ⟨?_, ?_, ?_, ?_, by decide, by decide, by decide⟩
  · intro v
    have hfind : (COMMAND_SET.find? fun p => p.1 = "set_wavelength").map Prod.snd =
        some "WL {value}" := by decide
    rw [build_command, hfind]
    dsimp only
    simp only [formatAux, lookupKw]
    rw [if_pos (by decide : (['e', 'u', 'l', 'a', 'v'].reverse = "value".data))]
    dsimp only [Except.map]
    rw [List.append_nil]
    rfl
  · intro v
    have hfind : (COMMAND_SET.find? fun p => p.1 = "set_integration").map Prod.snd =
        some "INTTIME {value}" := by decide
    rw [build_command, hfind]
    dsimp only
    simp only [formatAux, lookupKw]
    rw [if_pos (by decide : (['e', 'u', 'l', 'a', 'v'].reverse = "value".data))]
    dsimp only [Except.map]
    rw [List.append_nil]
    rfl
  · intro v
    have hfind : (COMMAND_SET.find? fun p => p.1 = "set_average").map Prod.snd =
        some "AVG {value}" := by decide
    rw [build_command, hfind]
    dsimp only
    simp only [formatAux, lookupKw]
    rw [if_pos (by decide : (['e', 'u', 'l', 'a', 'v'].reverse = "value".data))]
    dsimp only [Except.map]
    rw [List.append_nil]
    rfl
  · intro m
    have hfind : (COMMAND_SET.find? fun p => p.1 = "calibration").map Prod.snd =
        some "CAL {mode}" := by decide
    rw [build_command, hfind]
    dsimp only
    simp only [formatAux, lookupKw]
    rw [if_neg (by decide : ¬ (['e', 'd', 'o', 'm'].reverse = "value".data)),
      if_pos (by decide : (['e', 'd', 'o', 'm'].reverse = "mode".data))]
    dsimp only [Except.map]
    rw [List.append_nil]
    rfl

theorem pyBitSet_natCast (n : Nat) (i : Nat) (hi : i < 4) :
    pyBitSet (n : Int) i = n.testBit i := by
  rw [pyBitSet]
  have h1 : ((n : Int).emod ((2 : Int) ^ (i + 1))) = ((n % 2 ^ (i + 1) : Nat) : Int) := by
    push_cast
    rfl
  rw [h1, Int.toNat_natCast, Nat.testBit_mod_two_pow]
  simp

/-- C4: STAT payload decoding maps the hex bitmask so that bit 0 sets
`ready`, bit 1 sets `error`, bit 2 sets `calibrating` and bit 3 sets
`measuring`; in particular payload `0F` decodes to all four flags true and
payload `01` to `ready` alone. -/
theorem C4_stat_bitmask :
    (∀ (s : String) (n : Nat), pyIntHex s = some (n : Int) →
      parse_payload ("STAT " ++ s) =
        .status (n.testBit 0) (n.testBit 1) (n.testBit 2) (n.testBit 3)) ∧
    parse_payload "STAT 0F" = .status true true true true ∧
    parse_payload "STAT 01" = .status true false false false := by
  refine ⟨?_, by decide, by decide⟩
  intro s n hhex
  rw [parse_payload]
  have hdata : ("STAT " ++ s).data = 'S' :: 'T' :: 'A' :: 'T' :: ' ' :: s.data := rfl
  rw [hdata]
  have hsplit : splitOnceAux [] ('S' :: 'T' :: 'A' :: 'T' :: ' ' :: s.data) =
      ("STAT".data, some s.data) := by
    simp [splitOnceAux]
  rw [hsplit]
  dsimp only
  rw [if_neg (by decide), if_neg (by decide), if_neg (by decide), if_pos (by decide)]
  have hhex2 : pyIntHex ⟨(some s.data).getD []⟩ = some (n : Int) := hhex
  rw [hhex2]
  dsimp only
  rw [pyBitSet_natCast n 0 (by norm_num), pyBitSet_natCast n 1 (by norm_num),
    pyBitSet_natCast n 2 (by norm_num), pyBitSet_natCast n 3 (by norm_num)]

/-- Witness for C4: the quantified part applied at the payload `0F`. -/
theorem C4_stat_bitmask_witness :
    parse_payload ("STAT " ++ "0F") = .status true true true true := by
  have h := C4_stat_bitmask.1 "0F" 15 (by decide)
  simpa using h

/-- C5: a single-mode scan with start 500, end 510, step 5 issues exactly
three wavelength-set commands, in order 500, 505, 510, each paired with a
read command, emits the progress events 1/3, 2/3, 1 in that order
(`num_points = int((end-start)/step) + 1 = 3`), and ends with the scanning
flag cleared. -/
theorem C5_single_scan_500_510_5 :
    start_scan ⟨500, 510, 5, .SINGLE, 1, 1⟩ initDAState =
      some { current_scan := some ⟨500, 510, 5, .SINGLE, 1, 1⟩, is_scanning := false,
             scan_state := "scanning", repeat_count := 0, auto_timer_started := false,
             sent_commands := [.set_wavelength 500, .read_intensity, .set_wavelength 505,
               .read_intensity, .set_wavelength 510, .read_intensity],
             progress_events := [1/3, 2/3, 1] } := by
  have h :
      start_scan ⟨500, 510, 5, .SINGLE, 1, 1⟩ initDAState =
        some { current_scan := some ⟨500, 510, 5, .SINGLE, 1, 1⟩, is_scanning := false,
               scan_state := "scanning", repeat_count := 0, auto_timer_started := false,
               sent_commands := [.set_wavelength 500, .read_intensity, .set_wavelength 505,
                 .read_intensity, .set_wavelength 510, .read_intensity],
               progress_events := [Rat.divInt 1 3, Rat.divInt 2 3, 1] } := by decide
  have hl : [Rat.divInt 1 3, Rat.divInt 2 3, (1 : ℚ)] = [1/3, 2/3, (1 : ℚ)] := by
    norm_num [Rat.divInt_eq_div]
  rw [hl] at h
  exact h

/-- C6 counterexample: `start_scan` with `start_wavelength = end_wavelength`
(a `start >= end` configuration) is not rejected: the state enters scanning
(`scan_state` becomes `"scanning"`) and a set-wavelength plus a read command
reach the communicator — not the claimed `InvalidConfig` rejection with zero
commands.  (No `InvalidConfig` error exists anywhere in the code.) -/
theorem C6_equal_bounds_not_rejected :
    start_scan ⟨500, 500, 5, .SINGLE, 1, 1⟩ initDAState =
      some { current_scan := some ⟨500, 500, 5, .SINGLE, 1, 1⟩, is_scanning := false,
             scan_state := "scanning", repeat_count := 0, auto_timer_started := false,
             sent_commands := [.set_wavelength 500, .read_intensity],
             progress_events := [1] } := by decide

/-- C6 (amended): `start_scan` performs no range validation.  With
`start_wavelength = end_wavelength` it enters the scanning state and issues
one set-wavelength command and one read command for the single point before
completing; with `start_wavelength > end_wavelength` by at least one step it
computes a negative point count and the `np.linspace` call raises an uncaught
`ValueError` (modelled as `none`) — in neither case is any `InvalidConfig`
error produced. -/
theorem C6_start_scan_no_range_check :
    (∀ (cfg : ScanConfig) (st : DAState),
      cfg.mode = .SINGLE → st.is_scanning = false → cfg.step_size ≠ 0 →
      cfg.start_wavelength = cfg.end_wavelength →
      start_scan cfg st =
        some { current_scan := some cfg, is_scanning := false, scan_state := "scanning",
               repeat_count := 0, auto_timer_started := st.auto_timer_started,
               sent_commands := st.sent_commands ++
                 [.set_wavelength cfg.start_wavelength, .read_intensity],
               progress_events := st.progress_events ++ [1] }) ∧
    start_scan ⟨510, 500, 5, .SINGLE, 1, 1⟩ initDAState = none := by
  refine ⟨?_, by decide⟩
  intro cfg st hm hs hstep heq
  obtain ⟨s, e, step, mode, rc, iv⟩ := cfg
  dsimp only at hm hstep heq ⊢
  subst hm
  subst heq
  rw [start_scan, if_neg (by simp [hs])]
  dsimp only
  rw [execute_single_scan]
  dsimp only
  rw [if_neg hstep]
  have h1 : qDiv (qSub s s) step = 0 := by rw [qSub_eq, sub_self, qDiv_eq, zero_div]
  rw [h1]
  have h2 : pyTrunc 0 + 1 = 1 := by decide
  rw [h2]
  have h3 : linspace s s 1 = some [s] := by rw [linspace]; norm_num
  rw [h3]
  dsimp only
  rw [scanLoop]
  dsimp only
  rw [if_pos rfl]
  rw [scanLoop]
  dsimp only [sendCmd, emitProgress]
  rw [show qDiv ((0 + 1 : Nat) : ℚ) ((1 : Int) : ℚ) = 1 from by decide]
  rw [if_pos rfl]
  rw [handle_scan_complete]
  dsimp only
  rw [stop_scan]
  simp [List.append_assoc]

/-- Witness for C6 (amended): the quantified part applied at a concrete
equal-bounds configuration. -/
theorem C6_start_scan_no_range_check_witness :
    start_scan ⟨600, 600, 5, .SINGLE, 1, 1⟩ initDAState =
      some { current_scan := some ⟨600, 600, 5, .SINGLE, 1, 1⟩, is_scanning := false,
             scan_state := "scanning", repeat_count := 0, auto_timer_started := false,
             sent_commands := [.set_wavelength 600, .read_intensity],
             progress_events := [1] } := by
  have h := C6_start_scan_no_range_check.1 ⟨600, 600, 5, .SINGLE, 1, 1⟩ initDAState rfl rfl
    (by norm_num) rfl
  simpa using h

/-- The point count `int((end-start)/step) + 1` of a configuration, as a
natural number. -/
def numPts (cfg : ScanConfig) : Nat :=
  (pyTrunc (qDiv (qSub cfg.end_wavelength cfg.start_wavelength) cfg.step_size) + 1).toNat

theorem pyTrunc_nonneg (q : ℚ) (h : 0 ≤ q) : 0 ≤ pyTrunc q := by
  rw [pyTrunc]
  obtain ⟨m, hm⟩ := Int.eq_ofNat_of_zero_le (Rat.num_nonneg.2 h)
  rw [hm]
  exact Int.ofNat_nonneg _

theorem linspace_length (s e : ℚ) (n : Int) (hn : 0 ≤ n) :
    ∃ l, linspace s e n = some l ∧ l.length = n.toNat := by
  rw [linspace, if_neg (by omega)]
  by_cases h1 : n = 1
  · subst h1
    rw [if_pos rfl]
    exact ⟨[s], rfl, rfl⟩
  · rw [if_neg h1]
    exact ⟨_, rfl, by simp⟩

theorem scanLoop_scanning (n : Int) (wls : List ℚ) :
    ∀ (i : Nat) (st : DAState), st.is_scanning = true →
      (scanLoop n i wls st).is_scanning = true ∧
      (scanLoop n i wls st).scan_state = st.scan_state ∧
      (scanLoop n i wls st).auto_timer_started = st.auto_timer_started ∧
      (scanLoop n i wls st).sent_commands.length = st.sent_commands.length + 2 * wls.length ∧
      (scanLoop n i wls st).progress_events.length = st.progress_events.length + wls.length := by
  induction wls with
  | nil => intro i st h; rw [scanLoop]; exact ⟨h, rfl, rfl, by simp, by simp⟩
  | cons wl rest ih =>
      intro i st h
      rw [scanLoop, if_pos (by simpa using h)]
      have := ih (i + 1)
        (emitProgress (sendCmd (sendCmd st (.set_wavelength wl)) .read_intensity)
          (qDiv (((i + 1 : Nat)) : ℚ) ((n : Int) : ℚ))) (by simp [emitProgress, sendCmd, h])
      refine ⟨this.1, this.2.1, this.2.2.1, ?_, ?_⟩
      · rw [this.2.2.2.1]
        simp [emitProgress, sendCmd]
        omega
      · rw [this.2.2.2.2]
        simp [emitProgress, sendCmd]
        omega

theorem execute_single_scan_repeat (st : DAState) (cfg : ScanConfig)
    (hc : st.current_scan = some cfg) (hm : cfg.mode = .REPEAT)
    (hs : st.is_scanning = true) (hstep : cfg.step_size ≠ 0)
    (hpos : 0 ≤ qDiv (qSub cfg.end_wavelength cfg.start_wavelength) cfg.step_size) :
    ∃ st', execute_single_scan st = some st' ∧
      st'.current_scan = some cfg ∧
      st'.repeat_count = st.repeat_count ∧
      st'.scan_state = st.scan_state ∧
      st'.auto_timer_started = st.auto_timer_started ∧
      st'.is_scanning = (if st.repeat_count ≥ cfg.repeat_count then false else true) ∧
      st'.sent_commands.length = st.sent_commands.length + 2 * numPts cfg ∧
      st'.progress_events.length = st.progress_events.length + numPts cfg := by
  rw [execute_single_scan, hc]
  dsimp only
  rw [if_neg hstep]
  have hn : 0 ≤ pyTrunc (qDiv (qSub cfg.end_wavelength cfg.start_wavelength) cfg.step_size) :=
    pyTrunc_nonneg _ hpos
  obtain ⟨l, hl, hlen⟩ := linspace_length cfg.start_wavelength cfg.end_wavelength
    (pyTrunc (qDiv (qSub cfg.end_wavelength cfg.start_wavelength) cfg.step_size) + 1)
    (by omega)
  rw [hl]
  dsimp only
  have hloop := scanLoop_scanning
    (pyTrunc (qDiv (qSub cfg.end_wavelength cfg.start_wavelength) cfg.step_size) + 1) l 0 st hs
  have hpres := scanLoop_preserves
    (pyTrunc (qDiv (qSub cfg.end_wavelength cfg.start_wavelength) cfg.step_size) + 1) l 0 st
  set st1 := scanLoop
    (pyTrunc (qDiv (qSub cfg.end_wavelength cfg.start_wavelength) cfg.step_size) + 1) 0 l st
    with hst1
  rw [if_pos hloop.1]
  rw [handle_scan_complete, hpres.1.trans hc]
  dsimp only
  rw [hm]
  dsimp only
  have hnum : l.length = numPts cfg := by rw [hlen, numPts]
  by_cases hr : st.repeat_count ≥ cfg.repeat_count
  · rw [if_pos (by rw [hpres.2]; exact hr)]
    refine ⟨stop_scan st1, rfl, ?_, ?_, ?_, ?_, ?_, ?_, ?_⟩
    · exact hpres.1.trans hc
    · exact hpres.2
    · exact hloop.2.1
    · exact hloop.2.2.1
    · simp [stop_scan, hr]
    · rw [show (stop_scan st1).sent_commands = st1.sent_commands from rfl, hloop.2.2.2.1, hnum]
    · rw [show (stop_scan st1).progress_events = st1.progress_events from rfl,
        hloop.2.2.2.2, hnum]
  · rw [if_neg (by rw [hpres.2]; exact hr)]
    refine ⟨st1, rfl, hpres.1.trans hc, hpres.2, hloop.2.1, hloop.2.2.1, ?_, ?_, ?_⟩
    · simp [hloop.1, hr]
    · rw [hloop.2.2.2.1, hnum]
    · rw [hloop.2.2.2.2, hnum]


theorem start_repeat_scan_drive (k : Nat) :
    ∀ (st : DAState) (cfg : ScanConfig),
      st.current_scan = some cfg → cfg.mode = .REPEAT → st.is_scanning = true →
      cfg.step_size ≠ 0 →
      0 ≤ qDiv (qSub cfg.end_wavelength cfg.start_wavelength) cfg.step_size →
      cfg.repeat_count - st.repeat_count = (k : Int) + 1 →
      ∃ st', start_repeat_scan st = some st' ∧
        st'.is_scanning = false ∧
        st'.repeat_count = cfg.repeat_count ∧
        st'.scan_state = st.scan_state ∧
        st'.progress_events.length = st.progress_events.length + (k + 1) * numPts cfg ∧
        st'.sent_commands.length = st.sent_commands.length + (k + 1) * (2 * numPts cfg) := by
  induction k with
  | zero =>
      intro st cfg hc hm hs hstep hpos hk
      obtain ⟨st2, hexec, h1, h2, h3, h4, h5, h6, h7⟩ := execute_single_scan_repeat
        { st with repeat_count := st.repeat_count + 1 } cfg hc hm hs hstep hpos
      have hstop : st2.is_scanning = false := by
        rw [h5, if_pos (by dsimp only; omega)]
      have hrun : start_repeat_scan st = if st2.is_scanning then start_repeat_scan st2
          else some st2 := by
        rw [start_repeat_scan.eq_def, hc]
        dsimp only
        rw [dif_pos (by omega)]
        have hx : execute_single_scan { st with current_scan := some cfg, repeat_count := st.repeat_count + 1 } = some st2 := by
          rw [← hc]
          exact hexec
        split
        · next heq =>
            have heq2 : execute_single_scan { st with current_scan := some cfg, repeat_count := st.repeat_count + 1 } = none := heq
            rw [hx] at heq2
            cases heq2
        · next st2' heq =>
            have heq2 : execute_single_scan { st with current_scan := some cfg, repeat_count := st.repeat_count + 1 } = some st2' := heq
            rw [hx] at heq2
            injection heq2 with heq2
            subst heq2
            rfl
      rw [hstop, if_neg (by simp)] at hrun
      refine ⟨st2, hrun, hstop, ?_, h3, ?_, ?_⟩
      · rw [h2]; dsimp only; omega
      · rw [h7]; dsimp only; omega
      · rw [h6]; dsimp only; omega
  | succ k ih =>
      intro st cfg hc hm hs hstep hpos hk
      obtain ⟨st2, hexec, h1, h2, h3, h4, h5, h6, h7⟩ := execute_single_scan_repeat
        { st with repeat_count := st.repeat_count + 1 } cfg hc hm hs hstep hpos
      have hgo : st2.is_scanning = true := by
        rw [h5, if_neg (by dsimp only; omega)]
      have hrun : start_repeat_scan st = if st2.is_scanning then start_repeat_scan st2
          else some st2 := by
        rw [start_repeat_scan.eq_def, hc]
        dsimp only
        rw [dif_pos (by omega)]
        have hx : execute_single_scan { st with current_scan := some cfg, repeat_count := st.repeat_count + 1 } = some st2 := by
          rw [← hc]
          exact hexec
        split
        · next heq =>
            have heq2 : execute_single_scan { st with current_scan := some cfg, repeat_count := st.repeat_count + 1 } = none := heq
            rw [hx] at heq2
            cases heq2
        · next st2' heq =>
            have heq2 : execute_single_scan { st with current_scan := some cfg, repeat_count := st.repeat_count + 1 } = some st2' := heq
            rw [hx] at heq2
            injection heq2 with heq2
            subst heq2
            rfl
      rw [hgo, if_pos rfl] at hrun
      obtain ⟨st', hrec, hi1, hi2, hi3, hi4, hi5⟩ := ih st2 cfg h1 hm hgo hstep hpos
        (by rw [h2]; dsimp only; omega)
      refine ⟨st', hrun.trans hrec, hi1, hi2, hi3.trans h3, ?_, ?_⟩
      · rw [hi4, h7]
        dsimp only
        have hmul : (k + 1 + 1) * numPts cfg = (k + 1) * numPts cfg + numPts cfg :=
          Nat.succ_mul _ _
        omega
      · rw [hi5, h6]
        dsimp only
        have hmul : (k + 1 + 1) * (2 * numPts cfg) = (k + 1) * (2 * numPts cfg) +
            2 * numPts cfg := Nat.succ_mul _ _
        omega

/-- C7: in repeat mode with configured repeat count `n ≥ 1` and no
cancellation, starting a scan runs the point loop exactly `n` times — the
repeat counter is incremented before each run, a re-run happens only while
the counter is below `n`, the final counter equals `n`, each run emits one
progress event and one command pair per scan point — after which the
scanning flag is cleared (`Stopped`).  The completion check used on this
path is `_handle_scan_complete`'s comparison of the maintained
`_repeat_count` counter (the never-populated `_completed_scans` counter
lives only in the dead `_handle_scan_data` path, which no code calls). -/
theorem C7_repeat_runs_exactly_n (cfg : ScanConfig) (st : DAState)
    (hm : cfg.mode = .REPEAT) (hn : 1 ≤ cfg.repeat_count) (hstep : cfg.step_size ≠ 0)
    (hpos : 0 ≤ qDiv (qSub cfg.end_wavelength cfg.start_wavelength) cfg.step_size)
    (hs : st.is_scanning = false) :
    ∃ st', start_scan cfg st = some st' ∧
      st'.is_scanning = false ∧
      st'.repeat_count = cfg.repeat_count ∧
      st'.progress_events.length = st.progress_events.length +
        cfg.repeat_count.toNat * numPts cfg ∧
      st'.sent_commands.length = st.sent_commands.length +
        cfg.repeat_count.toNat * (2 * numPts cfg) := by
  rw [start_scan, if_neg (by simp [hs])]
  dsimp only
  rw [hm]
  dsimp only
  obtain ⟨st', hrun, h1, h2, h3, h4, h5⟩ := start_repeat_scan_drive
    ((cfg.repeat_count - 1).toNat)
    { st with is_scanning := true, current_scan := some cfg, scan_state := "scanning", repeat_count := 0 }
    cfg rfl hm rfl hstep hpos (by dsimp only; omega)
  refine ⟨st', hrun, h1, h2, ?_, ?_⟩
  · rw [h4]
    dsimp only
    have he : (cfg.repeat_count - 1).toNat + 1 = cfg.repeat_count.toNat := by omega
    rw [he]
  · rw [h5]
    dsimp only
    have he : (cfg.repeat_count - 1).toNat + 1 = cfg.repeat_count.toNat := by omega
    rw [he]

/-- Witness for C7: a two-repeat scan over 500–510 step 5 (3 points per run)
emits 6 progress events and 12 commands, ends stopped with counter 2. -/
theorem C7_repeat_runs_exactly_n_witness :
    ∃ st', start_scan ⟨500, 510, 5, .REPEAT, 2, 1⟩ initDAState = some st' ∧
      st'.is_scanning = false ∧ st'.repeat_count = 2 ∧
      st'.progress_events.length = 6 ∧ st'.sent_commands.length = 12 := by
  obtain ⟨st', hrun, h1, h2, h3, h4⟩ := C7_repeat_runs_exactly_n
    ⟨500, 510, 5, .REPEAT, 2, 1⟩ initDAState rfl (by decide) (by decide) (by decide) rfl
  refine ⟨st', hrun, h1, h2, ?_, ?_⟩
  · rw [h3, show numPts ⟨500, 510, 5, .REPEAT, 2, 1⟩ = 3 from by decide]
    rfl
  · rw [h4, show numPts ⟨500, 510, 5, .REPEAT, 2, 1⟩ = 3 from by decide]
    rfl

theorem mem_drop_one_range (n i : Nat) : i ∈ (List.range n).drop 1 ↔ 1 ≤ i ∧ i < n := by
  cases n with
  | zero => simp
  | succ m =>
      rw [List.range_succ_eq_map]
      dsimp only [List.drop]
      rw [List.mem_map]
      constructor
      · rintro ⟨a, ha, rfl⟩
        rw [List.mem_range] at ha
        omega
      · rintro ⟨h1, h2⟩
        exact ⟨i - 1, by rw [List.mem_range]; omega, by omega⟩

theorem peak_indices_mem (ints : List ℚ) (t : ℚ) (i : Nat) :
    i ∈ peak_indices ints t ↔
      (0 < i ∧ i + 1 < ints.length ∧
       ints.getD (i - 1) 0 < ints.getD i 0 ∧
       ints.getD (i + 1) 0 < ints.getD i 0 ∧
       t * npMax ints < ints.getD i 0) := by
  rw [peak_indices, List.mem_filter, mem_drop_one_range, isPeakAt]
  rw [← qMul_eq]
  simp only [Bool.and_eq_true, decide_eq_true_eq]
  constructor
  · rintro ⟨⟨h1, h2⟩, ⟨h3, h4⟩, h5⟩
    exact ⟨by omega, by omega, h3, h4, h5⟩
  · rintro ⟨h1, h2, h3, h4, h5⟩
    exact ⟨⟨by omega, by omega⟩, ⟨h3, h4⟩, h5⟩

theorem npMax_eq_foldl (x : ℚ) (xs : List ℚ) : npMax (x :: xs) = xs.foldl max x := by
  rw [npMax]
  have h : qMax = (max : ℚ → ℚ → ℚ) := by
    funext a b
    exact qMax_eq a b
  rw [h]

/-- C8: index `i` is selected as a peak iff it is interior (never the first
or last index) and its intensity is strictly greater than both neighbours
and strictly greater than `threshold` times the maximum intensity (`npMax`,
shown to be the genuine running maximum in the second conjunct); the peaks
correspond to those indices in ascending order; empty and strictly monotonic
inputs yield an empty result without error. -/
theorem C8_peak_selection :
    (∀ (ints : List ℚ) (t : ℚ) (i : Nat),
      i ∈ peak_indices ints t ↔
        (0 < i ∧ i + 1 < ints.length ∧
         ints.getD (i - 1) 0 < ints.getD i 0 ∧
         ints.getD (i + 1) 0 < ints.getD i 0 ∧
         t * npMax ints < ints.getD i 0)) ∧
    (∀ (x : ℚ) (xs : List ℚ), npMax (x :: xs) = xs.foldl max x) ∧
    (∀ (s : SpectrumData) (t : ℚ),
      (detect_peaks s t).map PeakData.wavelength =
        (peak_indices s.intensities t).map (fun i => s.wavelengths.getD i 0) ∧
      (detect_peaks s t).map PeakData.intensity =
        (peak_indices s.intensities t).map (fun i => s.intensities.getD i 0)) ∧
    (∀ (ints : List ℚ) (t : ℚ), List.Sorted (· < ·) (peak_indices ints t)) ∧
    (∀ (s : SpectrumData) (t : ℚ), s.intensities = [] → detect_peaks s t = []) ∧
    (∀ (s : SpectrumData) (t : ℚ), List.Chain' (· < ·) s.intensities → detect_peaks s t = []) ∧
    (∀ (s : SpectrumData) (t : ℚ), List.Chain' (· > ·) s.intensities → detect_peaks s t = []) := by
  have hsorted : ∀ (ints : List ℚ) (t : ℚ), List.Sorted (· < ·) (peak_indices ints t) := by
    intro ints t
    rw [peak_indices]
    exact (((List.sorted_lt_range (ints.length - 1)).sublist
      (List.drop_sublist 1 _))).filter _
  have hmap : ∀ (s : SpectrumData) (t : ℚ),
      (detect_peaks s t).map PeakData.wavelength =
        (peak_indices s.intensities t).map (fun i => s.wavelengths.getD i 0) ∧
      (detect_peaks s t).map PeakData.intensity =
        (peak_indices s.intensities t).map (fun i => s.intensities.getD i 0) := by
    intro s t
    rw [detect_peaks]
    dsimp only
    rw [List.map_map, List.map_map]
    exact ⟨rfl, rfl⟩
  refine ⟨peak_indices_mem, npMax_eq_foldl, hmap, hsorted, ?_, ?_, ?_⟩
  · intro s t h
    rw [detect_peaks]
    dsimp only
    rw [peak_indices, h]
    rfl
  · intro s t hchain
    have hempty : peak_indices s.intensities t = [] := by
      rw [List.eq_nil_iff_forall_not_mem]
      intro i hi
      rw [peak_indices_mem] at hi
      obtain ⟨h1, h2, h3, h4, h5⟩ := hi
      rw [List.chain'_iff_get] at hchain
      have hcg := hchain i (by omega)
      rw [List.get_eq_getElem, List.get_eq_getElem,
        ← List.getD_eq_getElem s.intensities 0 (by omega : i < s.intensities.length),
        ← List.getD_eq_getElem s.intensities 0 (by omega : i + 1 < s.intensities.length)] at hcg
      exact absurd hcg (not_lt.2 (le_of_lt h4))
    rw [detect_peaks]
    dsimp only
    rw [hempty]
    rfl
  · intro s t hchain
    have hempty : peak_indices s.intensities t = [] := by
      rw [List.eq_nil_iff_forall_not_mem]
      intro i hi
      rw [peak_indices_mem] at hi
      obtain ⟨h1, h2, h3, h4, h5⟩ := hi
      rw [List.chain'_iff_get] at hchain
      have hcg := hchain (i - 1) (by omega)
      have hi1 : i - 1 + 1 = i := by omega
      rw [List.get_eq_getElem, List.get_eq_getElem] at hcg
      simp only [hi1] at hcg
      rw [← List.getD_eq_getElem s.intensities 0 (by omega : i - 1 < s.intensities.length),
        ← List.getD_eq_getElem s.intensities 0 (by omega : i < s.intensities.length)] at hcg
      exact absurd hcg (not_lt.2 (le_of_lt h3))
    rw [detect_peaks]
    dsimp only
    rw [hempty]
    rfl

/-- Witness for C8: the conditional parts applied at concrete spectra (an
empty spectrum, a strictly increasing one and a strictly decreasing one). -/
theorem C8_peak_selection_witness :
    detect_peaks ⟨[], []⟩ (1/10) = [] ∧
    detect_peaks ⟨[400, 401, 402], [1, 2, 3]⟩ (1/10) = [] ∧
    detect_peaks ⟨[400, 401, 402], [3, 2, 1]⟩ (1/10) = [] :=
  ⟨C8_peak_selection.2.2.2.2.1 ⟨[], []⟩ (1/10) rfl,
   C8_peak_selection.2.2.2.2.2.1 ⟨[400, 401, 402], [1, 2, 3]⟩ (1/10)
     (by simp only [List.chain'_cons, List.chain'_singleton, and_true]; decide),
   C8_peak_selection.2.2.2.2.2.2 ⟨[400, 401, 402], [3, 2, 1]⟩ (1/10)
     (by simp only [List.chain'_cons, List.chain'_singleton, and_true]; decide)⟩

theorem walkLeft_spec (ints : List ℚ) (h : ℚ) :
    ∀ i : Nat, walkLeft ints h i ≤ i ∧
      (∀ j, walkLeft ints h i < j → j ≤ i → h < ints.getD j 0) ∧
      (ints.getD (walkLeft ints h i) 0 ≤ h ∨ walkLeft ints h i = 0) := by
  intro i
  induction i with
  | zero =>
      rw [walkLeft]
      exact ⟨le_refl 0, fun j hj1 hj2 => absurd (lt_of_lt_of_le hj1 hj2) (lt_irrefl 0),
        Or.inr rfl⟩
  | succ i ih =>
      rw [walkLeft]
      by_cases hc : h < ints.getD (i + 1) 0
      · rw [if_pos hc]
        refine ⟨le_trans ih.1 (by omega), ?_, ih.2.2⟩
        intro j hj1 hj2
        rcases Nat.lt_or_ge j (i + 1) with hj3 | hj3
        · exact ih.2.1 j hj1 (by omega)
        · have : j = i + 1 := by omega
          rw [this]
          exact hc
      · rw [if_neg hc]
        exact ⟨le_refl _, fun j hj1 hj2 => absurd (lt_of_lt_of_le hj1 hj2) (lt_irrefl _),
          Or.inl (not_lt.1 hc)⟩

theorem walkRightAux_spec (ints : List ℚ) (h : ℚ) :
    ∀ (fuel i : Nat), fuel = ints.length - 1 - i → i ≤ ints.length - 1 →
      i ≤ walkRightAux ints h fuel i ∧
      walkRightAux ints h fuel i ≤ ints.length - 1 ∧
      (∀ j, i ≤ j → j < walkRightAux ints h fuel i → h < ints.getD j 0) ∧
      (ints.getD (walkRightAux ints h fuel i) 0 ≤ h ∨
        walkRightAux ints h fuel i = ints.length - 1) := by
  intro fuel
  induction fuel with
  | zero =>
      intro i hf hi
      rw [walkRightAux]
      exact ⟨le_refl _, hi,
        fun j h1 h2 => absurd (lt_of_le_of_lt h1 h2) (lt_irrefl _), Or.inr (by omega)⟩
  | succ fuel ih =>
      intro i hf hi
      rw [walkRightAux]
      by_cases hc : h < ints.getD i 0
      · rw [if_pos hc]
        have hrec := ih (i + 1) (by omega) (by omega)
        refine ⟨by omega, hrec.2.1, ?_, hrec.2.2.2⟩
        intro j h1 h2
        rcases eq_or_lt_of_le h1 with heq | h1'
        · rw [← heq]
          exact hc
        · exact hrec.2.2.1 j (by omega) h2
      · rw [if_neg hc]
        exact ⟨le_refl _, hi,
          fun j h1 h2 => absurd (lt_of_le_of_lt h1 h2) (lt_irrefl _), Or.inl (not_lt.1 hc)⟩

theorem walkRight_spec (ints : List ℚ) (h : ℚ) (i : Nat) (hi : i ≤ ints.length - 1) :
    i ≤ walkRight ints h i ∧
    walkRight ints h i ≤ ints.length - 1 ∧
    (∀ j, i ≤ j → j < walkRight ints h i → h < ints.getD j 0) ∧
    (ints.getD (walkRight ints h i) 0 ≤ h ∨ walkRight ints h i = ints.length - 1) := by
  rw [walkRight]
  exact walkRightAux_spec ints h (ints.length - 1 - i) i rfl hi

/-- C9: every reported FWHM equals the wavelength span between the stopping
indices of the two half-max walks outward from the peak: each walk stops at
the first sample whose intensity is at or below half the peak intensity
(every sample strictly between the stop and the peak is strictly above
half-max), the boundary index bounding the walk when no such sample exists;
on intensities `[0,1,5,1,0]` with wavelengths `[400..404]` and threshold
`0.1` the single peak is at 402 with intensity 5, the walks stop at indices
1 and 3 (the first samples `<= 2.5` on each side) and the FWHM is
`403 - 401 = 2`. -/
theorem C9_fwhm :
    (∀ (s : SpectrumData) (t : ℚ) (p : PeakData), p ∈ detect_peaks s t →
      ∃ i ∈ peak_indices s.intensities t,
        p.fwhm =
          s.wavelengths.getD (walkRight s.intensities (s.intensities.getD i 0 / 2) i) 0 -
          s.wavelengths.getD (walkLeft s.intensities (s.intensities.getD i 0 / 2) i) 0 ∧
        walkLeft s.intensities (s.intensities.getD i 0 / 2) i ≤ i ∧
        (∀ j, walkLeft s.intensities (s.intensities.getD i 0 / 2) i < j → j ≤ i →
          s.intensities.getD i 0 / 2 < s.intensities.getD j 0) ∧
        (s.intensities.getD (walkLeft s.intensities (s.intensities.getD i 0 / 2) i) 0 ≤
          s.intensities.getD i 0 / 2 ∨
          walkLeft s.intensities (s.intensities.getD i 0 / 2) i = 0) ∧
        i ≤ walkRight s.intensities (s.intensities.getD i 0 / 2) i ∧
        walkRight s.intensities (s.intensities.getD i 0 / 2) i ≤ s.intensities.length - 1 ∧
        (∀ j, i ≤ j → j < walkRight s.intensities (s.intensities.getD i 0 / 2) i →
          s.intensities.getD i 0 / 2 < s.intensities.getD j 0) ∧
        (s.intensities.getD (walkRight s.intensities (s.intensities.getD i 0 / 2) i) 0 ≤
          s.intensities.getD i 0 / 2 ∨
          walkRight s.intensities (s.intensities.getD i 0 / 2) i =
            s.intensities.length - 1)) ∧
    detect_peaks ⟨[400, 401, 402, 403, 404], [0, 1, 5, 1, 0]⟩ (1/10) = [⟨402, 5, 2⟩] ∧
    walkLeft [0, 1, 5, 1, 0] (5/2) 2 = 1 ∧
    walkRight [0, 1, 5, 1, 0] (5/2) 2 = 3 := by
  refine ⟨?_, ?_, ?_, ?_⟩
  · intro s t p hp
    rw [detect_peaks] at hp
    dsimp only at hp
    rw [List.mem_map] at hp
    obtain ⟨i, hi, rfl⟩ := hp
    have hhalf : qDiv (s.intensities.getD i 0) 2 = s.intensities.getD i 0 / 2 := qDiv_eq _ _
    have hmem := hi
    rw [peak_indices_mem] at hmem
    have hlen : i ≤ s.intensities.length - 1 := by omega
    have hL := walkLeft_spec s.intensities (s.intensities.getD i 0 / 2) i
    have hR := walkRight_spec s.intensities (s.intensities.getD i 0 / 2) i hlen
    refine ⟨i, hi, ?_, hL.1, hL.2.1, hL.2.2, hR.1, hR.2.1, hR.2.2.1, hR.2.2.2⟩
    dsimp only
    rw [qSub_eq, hhalf]
  · have h : detect_peaks ⟨[400, 401, 402, 403, 404], [0, 1, 5, 1, 0]⟩ (Rat.divInt 1 10) =
        [⟨402, 5, 2⟩] := by decide
    rw [show (1 / 10 : ℚ) = Rat.divInt 1 10 from by norm_num [Rat.divInt_eq_div]]
    exact h
  · have h : walkLeft [0, 1, 5, 1, 0] (Rat.divInt 5 2) 2 = 1 := by decide
    rw [show (5 / 2 : ℚ) = Rat.divInt 5 2 from by norm_num [Rat.divInt_eq_div]]
    exact h
  · have h : walkRight [0, 1, 5, 1, 0] (Rat.divInt 5 2) 2 = 3 := by decide
    rw [show (5 / 2 : ℚ) = Rat.divInt 5 2 from by norm_num [Rat.divInt_eq_div]]
    exact h

/-- Witness for C9: the quantified part applied to the concrete example
spectrum and its detected peak. -/
theorem C9_fwhm_witness :
    ∃ i ∈ peak_indices ([0, 1, 5, 1, 0] : List ℚ) (Rat.divInt 1 10),
      (⟨402, 5, 2⟩ : PeakData).fwhm =
        ([400, 401, 402, 403, 404] : List ℚ).getD
          (walkRight [0, 1, 5, 1, 0] (([0, 1, 5, 1, 0] : List ℚ).getD i 0 / 2) i) 0 -
        ([400, 401, 402, 403, 404] : List ℚ).getD
          (walkLeft [0, 1, 5, 1, 0] (([0, 1, 5, 1, 0] : List ℚ).getD i 0 / 2) i) 0 := by
  obtain ⟨i, hi, h1, _⟩ := C9_fwhm.1 ⟨[400, 401, 402, 403, 404], [0, 1, 5, 1, 0]⟩
    (Rat.divInt 1 10) ⟨402, 5, 2⟩ (by decide)
  exact ⟨i, hi, h1⟩

/-- C10: calling `send_command` while no communication thread exists or the
connected flag is cleared is a silent no-op: the communicator state
(including any thread's command queue) is returned unchanged, nothing is
built or written, and no error is raised or published. -/
theorem C10_send_command_noop_when_disconnected :
    ∀ (ac : AsyncCommunicator) (cmd_type : String) (kw : Kwargs),
      ac.comm_thread = none ∨ ac.connected = false →
      send_command ac cmd_type kw = .ok ac := by
  intro ac cmd kw h
  rw [send_command]
  rcases hth : ac.comm_thread with _ | th
  · rfl
  · rcases h with h | h
    · rw [hth] at h
      cases h
    · dsimp only
      rw [if_neg (by simp [h])]

/-- Witness for C10: both disconnected shapes at concrete inputs — no
thread, and a thread with the connected flag cleared. -/
theorem C10_send_command_noop_witness :
    send_command ⟨none, true⟩ "read_wavelength" {} = .ok ⟨none, true⟩ ∧
    send_command ⟨some ⟨["$WL?*E2\r\n"]⟩, false⟩ "get_status" {} =
      .ok ⟨some ⟨["$WL?*E2\r\n"]⟩, false⟩ :=
  ⟨C10_send_command_noop_when_disconnected ⟨none, true⟩ "read_wavelength" {} (Or.inl rfl),
   C10_send_command_noop_when_disconnected ⟨some ⟨["$WL?*E2\r\n"]⟩, false⟩ "get_status" {}
     (Or.inr rfl)⟩
